import Mathlib

/-!
# Verification of the `kvs` log-structured key-value store

Shallow embedding of `src/courses/rust/projects/my-porject-1/src/kv.rs` and
`src/storages.rs` (a log-structured string-to-string store), together with
theorems settling the specification's claims.

Modelling conventions:

* The on-disk log file is a byte stream of back-to-back length-prefixed
  records `[length: 8 bytes BE][json payload]`.  Because every record
  occupies `8 + length > 0` bytes, the byte offset of the length prefix of
  the `i`-th record is a strictly monotone function of `i`; positions
  `(offset, length)` stored in the index are therefore in bijection with
  record indices.  We model the file as a `List Record` and a position as
  the index of the record in that list.  `get`'s seek-and-read at a stored
  position becomes `List.get?` at the stored index.
* `HashMap<String, (u64, usize)>` is modelled by its observable behaviour,
  a function `String → Option Nat` (key to record index); `entry` based
  insert-or-update becomes a pointwise update.
* `Result<T>` becomes `Except Error T`; `&mut self` methods become
  functions returning `(Except Error α) × KvStore`, the second component
  being the (possibly unchanged) receiver state.
-/

/-- `enum Record { Set(String, String), Remove(String) }` from `kv.rs`. -/
inductive Record where
  | Set : String → String → Record
  | Remove : String → Record
deriving DecidableEq, Repr

/-- The key carried by a record (the `match` at the top of
`KvStore::write_record`). -/
def Record.key : Record → String
  | .Set k _ => k
  | .Remove k => k

/-- `enum Error` from `error.rs`.  I/O and serde payloads are abstracted. -/
inductive Error where
  | Io : Error
  | Serde : Error
  | KeyNotFound : String → Error
  | InvalidKey : String → Error
  | ParseLengthError : Error
deriving DecidableEq, Repr

/-- The in-memory index `HashMap<String, (u64, usize)>`, modelled by its
lookup function: key to index of a record in the log. -/
def Index : Type := String → Option Nat

/-- `HashMap` insert-or-update (the `entry` match in `write_record` and in
`open`): point the key at a new position, leave every other key alone. -/
def Index.insert (idx : Index) (k : String) (pos : Nat) : Index :=
  fun k' => if k' = k then some pos else idx k'

/-- `HashMap::remove` (used by `open` when replaying a `Remove` record). -/
def Index.erase (idx : Index) (k : String) : Index :=
  fun k' => if k' = k then none else idx k'

/-- The empty index (`HashMap::new`). -/
def Index.empty : Index := fun _ => none

/-- `struct KvStore { file: File, index: HashMap<String, (u64, usize)> }`.
`file` is the sequence of records in the `db` file, `index` the in-memory
map from key to record position. -/
structure KvStore where
  file : List Record
  index : Index

/-- `KvStore::write_record`: append the record at the end of the file and
point the index entry for the record's key at the freshly written position.
Note that the source inserts into the index for `Set` *and* `Remove`
records alike. -/
def KvStore.write_record (s : KvStore) (r : Record) : KvStore :=
  { file := s.file ++ [r], index := s.index.insert r.key s.file.length }

/-- `KvStore::set`: reject the empty key, otherwise log a `Set` record. -/
def KvStore.set (s : KvStore) (k v : String) : Except Error Unit × KvStore :=
  if k.isEmpty then (.error (.InvalidKey k), s)
  else (.ok (), s.write_record (.Set k v))

/-- `KvStore::get`: reject the empty key; otherwise look the key up in the
index and, when present, read back the record stored at that position
(`Remove` decodes to `None`, `Set` to its value).  A dangling position
(impossible for states produced by the store) surfaces as the I/O error
`read_exact` would raise. -/
def KvStore.get (s : KvStore) (k : String) :
    Except Error (Option String) × KvStore :=
  if k.isEmpty then (.error (.InvalidKey k), s)
  else
    match s.index k with
    | none => (.ok none, s)
    | some pos =>
      match s.file[pos]? with
      | some (.Remove _) => (.ok none, s)
      | some (.Set _ v) => (.ok (some v), s)
      | none => (.error .Io, s)

/-- `KvStore::remove`: reject the empty key; fail with `KeyNotFound` when
the key is absent from the index; otherwise log a `Remove` record. -/
def KvStore.remove (s : KvStore) (k : String) : Except Error Unit × KvStore :=
  if k.isEmpty then (.error (.InvalidKey k), s)
  else
    match s.index k with
    | some _ => (.ok (), s.write_record (.Remove k))
    | none => (.error (.KeyNotFound k), s)

/-- The replay loop of `KvStore::open`, index-building pass over the
records of the file: `Remove` erases the key, `Set` points the key at the
record's position.  `pos` is the position of the first record of `recs`
in the whole file. -/
def replayGo (idx : Index) (pos : Nat) : List Record → Index
  | [] => idx
  | .Remove k :: rs => replayGo (idx.erase k) (pos + 1) rs
  | .Set k _ :: rs => replayGo (idx.insert k pos) (pos + 1) rs

/-- `KvStore::open`: read the whole `db` file and rebuild the index by
replaying every record in order. -/
def KvStore.open (recs : List Record) : KvStore :=
  { file := recs, index := replayGo Index.empty 0 recs }

/-- One store operation, as issued by a client. -/
inductive Op where
  | setOp : String → String → Op
  | removeOp : String → Op
  | getOp : String → Op
deriving DecidableEq, Repr

/-- Run one operation, keeping the (possibly unchanged) store state. -/
def KvStore.runOp (s : KvStore) : Op → KvStore
  | .setOp k v => (s.set k v).2
  | .removeOp k => (s.remove k).2
  | .getOp k => (s.get k).2

/-- Run a sequence of operations left to right. -/
def KvStore.runOps (s : KvStore) (ops : List Op) : KvStore :=
  ops.foldl KvStore.runOp s

/-- `op` is a write (set or remove) addressed at key `k`. -/
def Op.touches (op : Op) (k : String) : Prop :=
  match op with
  | .setOp k' _ => k' = k
  | .removeOp k' => k' = k
  | .getOp _ => False

instance (op : Op) (k : String) : Decidable (op.touches k) := by
  cases op <;> simp [Op.touches] <;> infer_instance

/-- The state component returned by `get` is the receiver, unchanged:
`KvStore::get` only seeks and reads, it never writes to the file or the
index. -/
theorem KvStore.get_state (s : KvStore) (k : String) : (s.get k).2 = s := by
  unfold KvStore.get
  split
  · rfl
  · cases hidx : s.index k with
    | none => simp
    | some pos =>
      simp only
      cases hrec : s.file[pos]? with
      | none => simp
      | some r => cases r <;> simp

/-- Claim C9: for every value `v`, each of `set("", v)`, `get("")` and
`remove("")` fails with the invalid-key error, and each of them leaves the
store (log file and index) unchanged. -/
theorem c9_empty_key_rejected (s : KvStore) (v : String) :
    (s.set "" v).1 = .error (.InvalidKey "") ∧ (s.set "" v).2 = s ∧
    (s.get "").1 = .error (.InvalidKey "") ∧ (s.get "").2 = s ∧
    (s.remove "").1 = .error (.InvalidKey "") ∧ (s.remove "").2 = s := by
  refine ⟨rfl, rfl, rfl, rfl, rfl, rfl⟩

/-- A store state in which key `k` is live with value `v`: the index
points `k` at position `i` and the log holds `Set k v` there. -/
def KvStore.LiveAt (s : KvStore) (k v : String) (i : Nat) : Prop :=
  s.index k = some i ∧ s.file[i]? = some (.Set k v)

/-- Appending any record to the log leaves every already-readable
position readable with the same record. -/
theorem KvStore.write_record_read (s : KvStore) (r : Record) (i : Nat)
    (x : Record) (h : s.file[i]? = some x) :
    (s.write_record r).file[i]? = some x := by
  have hlt : i < s.file.length := (List.getElem?_eq_some.mp h).1
  rw [KvStore.write_record]
  simpa [List.getElem?_append_left hlt] using h

/-- Liveness of a key is preserved by any operation that does not write
to that key: writes to other keys append to the log and update other
index entries, `get` changes nothing, and rejected operations leave the
state untouched. -/
theorem KvStore.LiveAt.preserved (s : KvStore) (k v : String) (i : Nat)
    (hlive : s.LiveAt k v i) (op : Op) (hop : ¬ op.touches k) :
    (s.runOp op).LiveAt k v i := by
  obtain ⟨hidx, hrec⟩ := hlive
  cases op with
  | setOp k' v' =>
    rw [KvStore.runOp, KvStore.set]
    split
    · exact ⟨hidx, hrec⟩
    · refine ⟨?_, KvStore.write_record_read s _ i _ hrec⟩
      have hne : k ≠ k' := fun h => hop (h ▸ rfl)
      simpa [KvStore.write_record, Index.insert, Record.key, hne] using hidx
  | removeOp k' =>
    rw [KvStore.runOp, KvStore.remove]
    split
    · exact ⟨hidx, hrec⟩
    · cases h' : s.index k' with
      | some j =>
        simp only
        refine ⟨?_, KvStore.write_record_read s _ i _ hrec⟩
        have hne : k ≠ k' := fun h => hop (h ▸ rfl)
        simpa [KvStore.write_record, Index.insert, Record.key, hne] using hidx
      | none => exact ⟨hidx, hrec⟩
  | getOp k' =>
    rw [KvStore.runOp, KvStore.get_state]
    exact ⟨hidx, hrec⟩

/-- Liveness is preserved by any sequence of operations none of which
writes to the key. -/
theorem KvStore.LiveAt.preserved_runOps (k v : String) (i : Nat)
    (ops : List Op) (s : KvStore) (hlive : s.LiveAt k v i)
    (hops : ∀ op ∈ ops, ¬ op.touches k) :
    (s.runOps ops).LiveAt k v i := by
  induction ops generalizing s with
  | nil => exact hlive
  | cons op rest ih =>
    exact ih (s.runOp op)
      (hlive.preserved s k v i op (hops op (List.mem_cons_self op rest)))
      (fun o ho => hops o (List.mem_cons_of_mem op ho))

/-- At a state where `k` is live with value `v`, `get k` answers `v`. -/
theorem KvStore.get_of_liveAt (s : KvStore) (k v : String) (i : Nat)
    (hk : ¬ k.isEmpty) (hlive : s.LiveAt k v i) :
    (s.get k).1 = .ok (some v) := by
  obtain ⟨hidx, hrec⟩ := hlive
  rw [KvStore.get]
  simp [hk, hidx, hrec]

/-- Right after `set k v`, the key `k` is live with value `v`, pointed at
the freshly appended last record. -/
theorem KvStore.set_liveAt (s : KvStore) (k v : String) (hk : ¬ k.isEmpty) :
    ((s.set k v).2).LiveAt k v s.file.length := by
  rw [KvStore.set, if_neg hk]
  exact ⟨by simp [KvStore.write_record, Index.insert, Record.key],
    by simp [KvStore.write_record, List.getElem?_concat_length]⟩

/-- Claim C1: for every non-empty key `k`, after `set k v` followed by any
operations none of which writes to `k`, `get k` returns `Some v`; in
particular `set k "a"` then `set k "b"` makes `get k` return `"b"`, while
the log retains both records and the index points only at the latter. -/
theorem c1_last_set_wins (s : KvStore) (k v : String) (ops : List Op)
    (hk : ¬ k.isEmpty) (hops : ∀ op ∈ ops, ¬ op.touches k) :
    ((((s.set k v).2).runOps ops).get k).1 = .ok (some v) ∧
    (((s.set k "a").2).set k "b").2.file
      = s.file ++ [.Set k "a", .Set k "b"] ∧
    (((s.set k "a").2).set k "b").2.index k = some (s.file.length + 1) ∧
    (((((s.set k "a").2).set k "b").2).get k).1 = .ok (some "b") := by
  have hab : (((s.set k "a").2).set k "b").2.LiveAt k "b" (s.file.length + 1) := by
    have := KvStore.set_liveAt ((s.set k "a").2) k "b" hk
    have hlen : ((s.set k "a").2).file.length = s.file.length + 1 := by
      rw [KvStore.set]
      simp [hk, KvStore.write_record]
    rwa [hlen] at this
  refine ⟨?_, ?_, hab.1, KvStore.get_of_liveAt _ k "b" _ hk hab⟩
  · exact KvStore.get_of_liveAt _ k v s.file.length hk
      (KvStore.LiveAt.preserved_runOps k v s.file.length ops _
        (KvStore.set_liveAt s k v hk) hops)
  · rw [KvStore.set, KvStore.set]
    simp [hk, KvStore.write_record]

/-- Witness for C1 at a concrete input: the empty store, key `"k"`,
value `"v"`, followed by a write to another key and a read. -/
theorem c1_last_set_wins_witness :
    (¬ ("k".isEmpty = true)) ∧
    ((((KvStore.open []).set "k" "v").2.runOps
        [.setOp "x" "y", .getOp "k"]).get "k").1 = .ok (some "v") :=
  ⟨by decide,
    (c1_last_set_wins (KvStore.open []) "k" "v" [.setOp "x" "y", .getOp "k"]
      (by decide) (by decide)).1⟩

/-- Claim C2 (divergence exhibit): in one session on the empty store,
after `set "k" "v"` then `remove "k"`, `get "k"` does return `None`, but a
second `remove "k"` succeeds instead of failing with `KeyNotFound`:
`write_record` re-inserts the key into the index even for a `Remove`
record, so the key never leaves the in-memory index. -/
theorem c2_second_remove_succeeds :
    ((((KvStore.open []).set "k" "v").2.remove "k").2.get "k").1 = .ok none ∧
    ((((KvStore.open []).set "k" "v").2.remove "k").2.remove "k").1
      = .ok () ∧
    ((((KvStore.open []).set "k" "v").2.remove "k").2.remove "k").1
      ≠ .error (.KeyNotFound "k") :=
  ⟨rfl, rfl, fun h => Except.noConfusion h⟩

/-- Claim C3 (divergence exhibit): after `set "k" "v"` then `remove "k"`
the key `"k"` is still present in the index and its position holds the
`Remove "k"` record, violating the invariant that an indexed key always
resolves to a `Set` record and that a removed key is absent from the
index. -/
theorem c3_indexed_key_points_at_remove :
    ((((KvStore.open []).set "k" "v").2.remove "k").2).index "k" = some 1 ∧
    ((((KvStore.open []).set "k" "v").2.remove "k").2).file[1]?
      = some (.Remove "k") :=
  ⟨rfl, rfl⟩

/-- Position `i` in the whole log of the last record whose key is `k`,
together with that record (`none` when no record ever touched `k`). -/
def lastTouch (k : String) : List Record → Option (Nat × Record)
  | [] => none
  | r :: rs =>
    match lastTouch k rs with
    | some (i, r') => some (i + 1, r')
    | none => if r.key = k then some (0, r) else none

/-- A record reported by `lastTouch` really sits at the reported
position of the log. -/
theorem lastTouch_read (k : String) (recs : List Record) (i : Nat)
    (r : Record) (h : lastTouch k recs = some (i, r)) : recs[i]? = some r := by
  induction recs generalizing i with
  | nil => exact absurd h (by simp [lastTouch])
  | cons r0 rs ih =>
    rw [lastTouch] at h
    cases h' : lastTouch k rs with
    | some p =>
      obtain ⟨j, r'⟩ := p
      rw [h'] at h
      simp only [Option.some.injEq, Prod.mk.injEq] at h
      obtain ⟨hi, hr⟩ := h
      subst hi hr
      simpa using ih j h'
    | none =>
      rw [h'] at h
      simp only at h
      split at h
      · simp only [Option.some.injEq, Prod.mk.injEq] at h
        obtain ⟨hi, hr⟩ := h
        subst hr
        simp [← hi]
      · exact absurd h (by simp)

/-- What `open`'s replay loop leaves in the index for key `k`: the
position of the last `Set` record touching `k`, unless the last record
touching `k` is a `Remove` (then nothing), unless no record in the suffix
touches `k` at all (then whatever the accumulator held). -/
theorem replayGo_lookup (k : String) (recs : List Record) (idx : Index)
    (pos : Nat) :
    replayGo idx pos recs k =
      match lastTouch k recs with
      | some (i, .Set _ _) => some (pos + i)
      | some (_, .Remove _) => none
      | none => idx k := by
  induction recs generalizing idx pos with
  | nil => rfl
  | cons r rs ih =>
    cases r with
    | Set k' v' =>
      rw [replayGo, ih, lastTouch]
      cases h' : lastTouch k rs with
      | some p =>
        obtain ⟨j, r'⟩ := p
        cases r' <;> simp [Nat.add_assoc, Nat.add_comm 1 j]
      | none =>
        by_cases hk' : k' = k
        · subst hk'
          simp [Record.key, Index.insert]
        · have hne : ¬ k = k' := fun h => hk' h.symm
          simp [Record.key, hk', Index.insert, hne]
    | Remove k' =>
      rw [replayGo, ih, lastTouch]
      cases h' : lastTouch k rs with
      | some p =>
        obtain ⟨j, r'⟩ := p
        cases r' <;> simp [Nat.add_assoc, Nat.add_comm 1 j]
      | none =>
        by_cases hk' : k' = k
        · subst hk'
          simp [Record.key, Index.erase]
        · have hne : ¬ k = k' := fun h => hk' h.symm
          simp [Record.key, hk', Index.erase, hne]

/-- Claim C5: reopening a store from its log file gives a store in which
a key whose last record is `Set k v` reads back as `Some v` and a key
whose last record is `Remove k` reads back as `None`. -/
theorem c5_reopen_resolves_last_record (recs : List Record) (k v : String)
    (i : Nat) (hk : ¬ k.isEmpty) :
    (lastTouch k recs = some (i, .Set k v) →
      ((KvStore.open recs).get k).1 = .ok (some v)) ∧
    (lastTouch k recs = some (i, .Remove k) →
      ((KvStore.open recs).get k).1 = .ok none) := by
  constructor
  · intro h
    have hidx : (KvStore.open recs).index k = some i := by
      show replayGo Index.empty 0 recs k = some i
      rw [replayGo_lookup, h]
      simp
    have hrec : (KvStore.open recs).file[i]? = some (.Set k v) :=
      lastTouch_read k recs i _ h
    rw [KvStore.get]
    simp [hk, hidx, hrec]
  · intro h
    have hidx : (KvStore.open recs).index k = none := by
      show replayGo Index.empty 0 recs k = none
      rw [replayGo_lookup, h]
    rw [KvStore.get]
    simp [hk, hidx]

/-- Witness for C5 at the spec's concrete scenario: replaying
`set a 1; set b 2; set a 3; remove b` makes `a` read back `"3"` and `b`
read back `None`. -/
theorem c5_reopen_resolves_last_record_witness :
    ((KvStore.open [.Set "a" "1", .Set "b" "2", .Set "a" "3",
        .Remove "b"]).get "a").1 = .ok (some "3") ∧
    ((KvStore.open [.Set "a" "1", .Set "b" "2", .Set "a" "3",
        .Remove "b"]).get "b").1 = .ok none :=
  ⟨(c5_reopen_resolves_last_record _ "a" "3" 2 (by decide)).1 (by decide),
   (c5_reopen_resolves_last_record _ "b" "x" 3 (by decide)).2 (by decide)⟩

/-- Claim C10: `get` never mutates the store: for every state and every key
(empty or not, present or absent) the state after `get` is the state
before, so any subsequent operation behaves as if the `get` had not
happened. -/
theorem c10_get_pure (s : KvStore) (k : String) :
    (s.get k).2 = s ∧ ∀ op : Op, (s.get k).2.runOp op = s.runOp op :=
  ⟨KvStore.get_state s k, fun op => by rw [KvStore.get_state]⟩

/-!
## The segment log of `storages.rs`

`struct Storage { path, files: Vec<File>, record_count: u32 }` manages a
directory of segment files `{id}.kv`.  We model each open segment file as
the list of record payloads it holds (a payload being a byte list), so a
`ValuePosition`'s `offset` — the byte offset of a record's length prefix,
a strictly monotone function of the record's ordinal in its file — is
modelled as that ordinal.  A directory is a list of named files in the
order the operating system enumerates them (`read_dir` promises no
particular order).
-/

/-- One entry of a storage directory: a file name and the file's
contents (its list of record payloads). -/
structure DirEntry where
  name : String
  content : List (List Nat)
deriving DecidableEq, Repr

/-- `struct ValuePosition { file: usize, offset: u64, length: usize }`. -/
structure ValuePosition where
  file : Nat
  offset : Nat
  length : Nat
deriving DecidableEq, Repr

/-- The in-memory state of `struct Storage`: the open segment files (each
a list of record payloads) and the current record count. -/
structure Storage where
  files : List (List (List Nat))
  record_count : Nat
deriving DecidableEq, Repr

/-- `Storage::MAX_RECORDS_COUNT_PER_FILE`. -/
def Storage.MAX_RECORDS_COUNT_PER_FILE : Nat := 1000

/-- `Storage::write_record`: append the payload at the end of the last
segment file, bump `record_count`, and remember the position written to;
then, if `record_count` has reached the per-file cap, open a fresh empty
segment file and append it to `files`.  The source never resets
`record_count` after the rollover. -/
def Storage.write_record (s : Storage) (bytes : List Nat) :
    Storage × ValuePosition :=
  let cur := s.files.getLast?.getD []
  let pos : ValuePosition :=
    { file := s.files.length - 1, offset := cur.length, length := bytes.length }
  let files' := s.files.dropLast ++ [cur ++ [bytes]]
  let rc := s.record_count + 1
  if rc ≥ Storage.MAX_RECORDS_COUNT_PER_FILE then
    ({ files := files' ++ [[]], record_count := rc }, pos)
  else
    ({ files := files', record_count := rc }, pos)

/-- A storage freshly opened on an empty directory: one empty segment
file `0.kv` and no records counted. -/
def Storage.fresh : Storage := { files := [[]], record_count := 0 }

/-- `n` consecutive `write_record` calls (with empty payloads; the
payload plays no part in the rollover logic). -/
def Storage.writeN (s : Storage) : Nat → Storage
  | 0 => s
  | n + 1 => ((s.writeN n).write_record []).1

/-- The `.kv` suffix test of `Storage::init`'s directory scan
(`file_name().to_string_lossy().ends_with(".kv")`), on the name's
character list. -/
def isKvName (n : String) : Bool :=
  decide (n.data.reverse.take 3 = ['v', 'k', '.'])

/-- Byte-wise lexicographic comparison of two file names, as Rust's
`OsString` ordering compares names (for the ASCII names at hand,
codepoint order and byte order coincide). -/
def charsLe : List Char → List Char → Bool
  | [], _ => true
  | _ :: _, [] => false
  | a :: as, b :: bs =>
    if a.toNat = b.toNat then charsLe as bs else decide (a.toNat < b.toNat)

/-- `nameLe a b` is `OsString` order on file names: `a ≤ b` byte-wise. -/
def nameLe (a b : String) : Bool := charsLe a.data b.data

/-- Insert a name into a list sorted by `nameLe` (helper for modelling
`sort_by_key`). -/
def insertByName (x : String) : List String → List String
  | [] => [x]
  | y :: ys => if nameLe y x then y :: insertByName x ys else x :: y :: ys

/-- Sort file names by `nameLe`, modelling
`file_path.sort_by_key(|it| it.file_name())` in `Storage::init`: a
stable sort by the `OsString` file name (insertion sort here; on the
distinct names of a directory listing every sort by the same key
agrees). -/
def sortByName : List String → List String
  | [] => []
  | x :: xs => insertByName x (sortByName xs)

/-- The order in which `Storage::init` opens — and therefore replays —
the segment files found in the directory: the `.kv` entries sorted by
file name. -/
def initFileOrder (entries : List String) : List String :=
  sortByName (entries.filter isKvName)

/-- Modelled from the spec for comparison: the numeric segment id encoded
in a file name `{segment_id}.kv` (the digits before the suffix, read as a
decimal number). -/
def specIdNum (n : String) : Nat :=
  (n.data.takeWhile (fun c => decide (48 ≤ c.toNat) && decide (c.toNat ≤ 57))).foldl
    (fun acc c => acc * 10 + (c.toNat - 48)) 0

/-- Insert a name into a list sorted by ascending numeric id (helper). -/
def insertById (x : String) : List String → List String
  | [] => [x]
  | y :: ys => if specIdNum y ≤ specIdNum x then y :: insertById x ys
               else x :: y :: ys

/-- Modelled from the spec for comparison: the replay order the spec
describes, `.kv` entries sorted by their filename-encoded id in
ascending numeric order. -/
def specIdOrder (entries : List String) : List String :=
  (entries.filter isKvName).foldr insertById []

/-- Claim C7 (divergence exhibit): on a directory holding segments
`0.kv`, `1.kv`, `2.kv` and `10.kv`, `Storage::init` sorts the file
names byte-wise lexicographically, so `10.kv` is opened and replayed
before `2.kv` — not in ascending numeric id order as the claim states
(and as the rollover naming `{files.len()}.kv` requires for replay to
follow write order). -/
theorem c7_replay_order_lexicographic_not_numeric :
    initFileOrder ["10.kv", "2.kv", "0.kv", "1.kv", "notes.txt"]
      = ["0.kv", "1.kv", "10.kv", "2.kv"] ∧
    specIdOrder ["10.kv", "2.kv", "0.kv", "1.kv", "notes.txt"]
      = ["0.kv", "1.kv", "2.kv", "10.kv"] ∧
    initFileOrder ["10.kv", "2.kv", "0.kv", "1.kv", "notes.txt"]
      ≠ specIdOrder ["10.kv", "2.kv", "0.kv", "1.kv", "notes.txt"] := by
  refine ⟨by decide, by decide, by decide⟩

/-- The copy loop of `Storage::replace`: walk the other storage's
directory entries in enumeration order; each `.kv` file is copied into
the live directory (here: appended to `dst`), unless `fs::copy` fails for
it, in which case the loop stops with the live directory as it stands at
that moment. -/
def copySegments (copyFails : String → Bool) (dst : List DirEntry) :
    List DirEntry → Except (List DirEntry) (List DirEntry)
  | [] => .ok dst
  | e :: es =>
    if isKvName e.name then
      if copyFails e.name then .error dst
      else copySegments copyFails (dst ++ [e]) es
    else copySegments copyFails dst es

/-- `Storage::replace`, over explicit directory listings: `live` is the
live directory, `other` the other storage's directory, `otherCount` its
`record_count`, and `copyFails` says which of the other storage's files
`fs::copy` fails on.  Steps of the source: flush; back the live `.kv`
files up; delete them; copy the other storage's `.kv` files over — on a
copy failure, run `roll_back` (delete every `.kv` file, then restore
every backup file) and surface the I/O error; on success, re-open the
live directory's `.kv` files as the new handle set in the order `read_dir`
yields them (the source does not sort here) and adopt `otherCount`.
Returns the result (on success: the re-opened file names in open order
and the adopted count) and the final live directory. -/
def Storage.replace (live other : List DirEntry) (otherCount : Nat)
    (copyFails : String → Bool) :
    Except Error (List String × Nat) × List DirEntry :=
  let backup := live.filter (fun e => isKvName e.name)
  let live1 := live.filter (fun e => !(isKvName e.name))
  match copySegments copyFails live1 other with
  | .error liveAtFail =>
    (.error .Io, liveAtFail.filter (fun e => !(isKvName e.name)) ++ backup)
  | .ok live2 =>
    (.ok ((live2.filter (fun e => isKvName e.name)).map DirEntry.name,
        otherCount),
      live2)

/-- A successful copy loop appends exactly the other directory's `.kv`
entries, in enumeration order. -/
theorem copySegments_ok (copyFails : String → Bool) (es : List DirEntry)
    (dst out : List DirEntry)
    (h : copySegments copyFails dst es = .ok out) :
    out = dst ++ es.filter (fun e => isKvName e.name) := by
  induction es generalizing dst with
  | nil =>
    rw [copySegments] at h
    cases h
    simp
  | cons e es ih =>
    rw [copySegments] at h
    by_cases hkv : isKvName e.name = true
    · rw [if_pos hkv] at h
      by_cases hf : copyFails e.name = true
      · rw [if_pos hf] at h
        cases h
      · rw [if_neg hf] at h
        rw [ih _ h]
        simp [hkv]
    · rw [if_neg hkv] at h
      rw [ih _ h]
      simp [hkv]

/-- A failed copy loop has only ever added `.kv` entries to the live
directory, so the non-`.kv` part of the directory at failure time is the
non-`.kv` part it started from. -/
theorem copySegments_error (copyFails : String → Bool) (es : List DirEntry)
    (dst fail : List DirEntry)
    (h : copySegments copyFails dst es = .error fail) :
    fail.filter (fun e => !(isKvName e.name))
      = dst.filter (fun e => !(isKvName e.name)) := by
  induction es generalizing dst with
  | nil =>
    rw [copySegments] at h
    cases h
  | cons e es ih =>
    rw [copySegments] at h
    by_cases hkv : isKvName e.name = true
    · rw [if_pos hkv] at h
      by_cases hf : copyFails e.name = true
      · rw [if_pos hf] at h
        cases h
        rfl
      · rw [if_neg hf] at h
        rw [ih _ h]
        simp [hkv]
    · rw [if_neg hkv] at h
      exact ih _ h

/-- Claim C8, counterexample to the claim as stated: with the other
storage's directory enumerated as `1.kv` before `0.kv` (a legal
`read_dir` order) and no copy failing, `replace` succeeds and re-opens
the new handle set in the order `["1.kv", "0.kv"]` — the handle opened
first carries the larger segment id, so the handles are not in ascending
id order (the re-open loop of `Storage::replace` does not sort, unlike
`Storage::init`). -/
theorem c8_reopen_not_id_order :
    (Storage.replace [⟨"0.kv", [[0]]⟩] [⟨"1.kv", [[1]]⟩, ⟨"0.kv", [[2]]⟩] 7
        (fun _ => false)).1
      = .ok (["1.kv", "0.kv"], 7) ∧
    ¬ specIdNum "1.kv" ≤ specIdNum "0.kv" :=
  ⟨rfl, by decide⟩

/-- Claim C8 as amended: `replace` adopts the other log's record count
and substitutes the live directory's segment files with the other log's
segment files, re-opened as the new handle set in directory-enumeration
order (not sorted by id); on a copy failure after the old files were
deleted it restores every old segment file from the backup and surfaces
an I/O error — so the live directory always ends with either the old or
the new segment files fully present. -/
theorem c8_replace_rollback (live other : List DirEntry) (otherCount : Nat)
    (copyFails : String → Bool) :
    ((Storage.replace live other otherCount copyFails).1.isOk = false →
      (Storage.replace live other otherCount copyFails).1 = .error .Io ∧
      (Storage.replace live other otherCount copyFails).2.filter
          (fun e => isKvName e.name)
        = live.filter (fun e => isKvName e.name) ∧
      (Storage.replace live other otherCount copyFails).2.filter
          (fun e => !(isKvName e.name))
        = live.filter (fun e => !(isKvName e.name))) ∧
    ((Storage.replace live other otherCount copyFails).1.isOk = true →
      (Storage.replace live other otherCount copyFails).1
        = .ok (((other.filter (fun e => isKvName e.name)).map DirEntry.name),
            otherCount) ∧
      (Storage.replace live other otherCount copyFails).2.filter
          (fun e => isKvName e.name)
        = other.filter (fun e => isKvName e.name)) := by
  unfold Storage.replace
  cases h : copySegments copyFails
      (live.filter (fun e => !(isKvName e.name))) other with
  | error fail =>
    have hfail := copySegments_error _ _ _ _ h
    refine ⟨fun _ => ⟨by simp [h], ?_, ?_⟩,
      fun hok => by simp [h, Except.isOk, Except.toBool] at hok⟩
    · simp only [h]
      simp [List.filter_append, List.filter_filter]
    · simp only [h]
      simp [List.filter_append, List.filter_filter, hfail]
  | ok out =>
    have hout := copySegments_ok _ _ _ _ h
    subst hout
    refine ⟨fun hok => by simp [h, Except.isOk, Except.toBool] at hok, fun _ => ⟨?_, ?_⟩⟩
    · simp only [h]
      simp [List.filter_append, List.filter_filter]
    · simp only [h]
      simp [List.filter_append, List.filter_filter]

/-- Witness for the amended C8, both branches at concrete inputs: a
failing copy of `0.kv` rolls the live directory back to exactly its old
segment files, and a fully successful copy installs exactly the other
directory's segment files and adopts its record count. -/
theorem c8_replace_rollback_witness :
    ((Storage.replace [⟨"0.kv", [[0]]⟩, ⟨"x.txt", []⟩]
        [⟨"1.kv", [[1]]⟩, ⟨"0.kv", [[2]]⟩] 7
        (fun n => n == "0.kv")).1.isOk = false) ∧
    ((Storage.replace [⟨"0.kv", [[0]]⟩, ⟨"x.txt", []⟩]
        [⟨"1.kv", [[1]]⟩, ⟨"0.kv", [[2]]⟩] 7
        (fun n => n == "0.kv")).2.filter (fun e => isKvName e.name)
      = [⟨"0.kv", [[0]]⟩, ⟨"x.txt", []⟩].filter (fun e => isKvName e.name)) ∧
    ((Storage.replace [⟨"0.kv", [[0]]⟩, ⟨"x.txt", []⟩]
        [⟨"1.kv", [[1]]⟩, ⟨"0.kv", [[2]]⟩] 7
        (fun _ => false)).2.filter (fun e => isKvName e.name)
      = [⟨"1.kv", [[1]]⟩, ⟨"0.kv", [[2]]⟩].filter (fun e => isKvName e.name)) :=
  ⟨by decide,
    ((c8_replace_rollback [⟨"0.kv", [[0]]⟩, ⟨"x.txt", []⟩]
      [⟨"1.kv", [[1]]⟩, ⟨"0.kv", [[2]]⟩] 7 (fun n => n == "0.kv")).1
      (by decide)).2.1,
    ((c8_replace_rollback [⟨"0.kv", [[0]]⟩, ⟨"x.txt", []⟩]
      [⟨"1.kv", [[1]]⟩, ⟨"0.kv", [[2]]⟩] 7 (fun _ => false)).2
      (by decide)).2⟩

/-- `write_record` always increments `record_count` by one; in
particular it never resets it at a rollover. -/
theorem Storage.write_record_count (s : Storage) (b : List Nat) :
    ((s.write_record b).1).record_count = s.record_count + 1 := by
  rw [Storage.write_record]
  split <;> rfl

/-- `write_record` leaves the number of open segment files unchanged
unless the (never reset) `record_count` has reached the cap, in which
case it opens one more. -/
theorem Storage.write_record_files_length (s : Storage) (b : List Nat)
    (h : 1 ≤ s.files.length) :
    ((s.write_record b).1).files.length =
      if s.record_count + 1 ≥ Storage.MAX_RECORDS_COUNT_PER_FILE
      then s.files.length + 1 else s.files.length := by
  rw [Storage.write_record]
  split <;> simp [List.length_dropLast] <;> omega

/-- Claim C6 (divergence exhibit): on a fresh storage, after `n` appends
`record_count` reads `n` — the total number of appends ever made, never
reset at a rollover — and consequently every append from the 1000th on
finds `record_count` at or above the cap and opens yet another segment
file: the file count is `n - 998` for every `n ≥ 1000` (2 files at 1000,
3 at 1001, 1002 at 2000), instead of a new file only once per 1000
records of the current segment as the claim states. -/
theorem c6_record_count_never_reset (n : Nat) :
    (Storage.fresh.writeN n).record_count = n ∧
    (Storage.fresh.writeN n).files.length =
      if n < 1000 then 1 else n - 998 := by
  induction n with
  | zero => exact ⟨rfl, rfl⟩
  | succ n ih =>
    obtain ⟨hc, hl⟩ := ih
    have hpos : 1 ≤ (Storage.fresh.writeN n).files.length := by
      rw [hl]; split <;> omega
    constructor
    · rw [Storage.writeN, Storage.write_record_count, hc]
    · rw [Storage.writeN, Storage.write_record_files_length _ _ hpos, hc, hl,
        Storage.MAX_RECORDS_COUNT_PER_FILE]
      split_ifs <;> omega

/-!
## Store-with-compaction, modelled from the spec (claim C4)

No code under `src/` implements the compaction trigger: `KvStore` in
`kv.rs` never consults a record count or a threshold and never calls
`Storage::replace`; only the segment log that a compacting store would
orchestrate exists (`storages.rs`).  The definitions below are therefore
modelled from the spec and settle claim C4 against that model.
-/

/-- Association-list lookup, standing for `HashMap` lookup of a key's
position in the modelled store. -/
def aGet (idx : List (String × Nat)) (k : String) : Option Nat :=
  (idx.find? (fun p => p.1 == k)).map Prod.snd

/-- Association-list insert-or-update. -/
def aInsert (idx : List (String × Nat)) (k : String) (pos : Nat) :
    List (String × Nat) :=
  (k, pos) :: idx.filter (fun p => p.1 != k)

/-- Association-list removal. -/
def aErase (idx : List (String × Nat)) (k : String) : List (String × Nat) :=
  idx.filter (fun p => p.1 != k)

/-- Modelled from the spec: the Store of spec §4.2–§4.3, with its log,
its index of live keys, the current record count, and the compaction
threshold (`2 × (record count at open/last compaction) + 371`). -/
structure SpecStore where
  log : List Record
  index : List (String × Nat)
  record_count : Nat
  threshold : Nat
deriving DecidableEq, Repr

/-- Modelled from the spec: compaction (§4.3) — copy the record at each
live index position into a fresh log (one record per live key), build a
brand-new index pointing each key at its new position, and recompute the
threshold as `2 × (new record count) + 371`. -/
def SpecStore.compact (s : SpecStore) : SpecStore :=
  let newlog := s.index.map (fun p => (s.log[p.2]?).getD (.Set p.1 ""))
  { log := newlog
    index := s.index.mapIdx (fun i p => (p.1, i))
    record_count := newlog.length
    threshold := 2 * newlog.length + 371 }

/-- Modelled from the spec: the compaction trigger check run after every
successful append — compact when the record count has reached the
threshold, otherwise return unchanged. -/
def SpecStore.maybeCompact (s : SpecStore) : SpecStore :=
  if s.record_count ≥ s.threshold then s.compact else s

/-- Modelled from the spec: `set` — reject the empty key, append a `Set`
record, point the index at it, then check the compaction trigger. -/
def SpecStore.set (s : SpecStore) (k v : String) : Except Error SpecStore :=
  if k.isEmpty then .error (.InvalidKey k)
  else
    .ok (SpecStore.maybeCompact
      { log := s.log ++ [.Set k v]
        index := aInsert s.index k s.log.length
        record_count := s.record_count + 1
        threshold := s.threshold })

/-- Modelled from the spec: `remove` — reject the empty key, fail with
key-not-found when the key is not live, otherwise append a `Remove`
record, erase the key, then check the compaction trigger. -/
def SpecStore.remove (s : SpecStore) (k : String) : Except Error SpecStore :=
  if k.isEmpty then .error (.InvalidKey k)
  else
    match aGet s.index k with
    | none => .error (.KeyNotFound k)
    | some _ =>
      .ok (SpecStore.maybeCompact
        { log := s.log ++ [.Remove k]
          index := aErase s.index k
          record_count := s.record_count + 1
          threshold := s.threshold })

/-- The store a successful operation returns (`s` itself in the error
case, which the theorems below rule out). -/
def orSelf (s : SpecStore) : Except Error SpecStore → SpecStore
  | .ok t => t
  | .error _ => s

/-- At or above the threshold, the trigger check compacts. -/
theorem SpecStore.maybeCompact_of_ge (s : SpecStore)
    (h : s.record_count ≥ s.threshold) : s.maybeCompact = s.compact := by
  rw [SpecStore.maybeCompact, if_pos h]

/-- Below the threshold, the trigger check does nothing. -/
theorem SpecStore.maybeCompact_of_lt (s : SpecStore)
    (h : s.record_count < s.threshold) : s.maybeCompact = s := by
  rw [SpecStore.maybeCompact, if_neg (by omega)]

/-- Claim C4 (spec-modelled): for a non-empty live key, `set` and
`remove` succeed, and after the append the record count is compared with
the threshold: at or above it the store compacts synchronously before
returning — leaving one log record per live index entry (so the record
count equals the number of live keys) and the threshold recomputed as
`2 × (new record count) + 371` — while below it the log has merely
grown by the one appended record and the threshold is unchanged. -/
theorem c4_compaction_trigger (s : SpecStore) (k v : String)
    (hk : ¬ k.isEmpty) (hin : aGet s.index k ≠ none) :
    (s.set k v = .ok (orSelf s (s.set k v)) ∧
     s.remove k = .ok (orSelf s (s.remove k))) ∧
    (s.record_count + 1 ≥ s.threshold →
      ((orSelf s (s.set k v)).log.length
          = (orSelf s (s.set k v)).index.length ∧
       (orSelf s (s.set k v)).record_count
          = (orSelf s (s.set k v)).index.length ∧
       (orSelf s (s.set k v)).threshold
          = 2 * (orSelf s (s.set k v)).log.length + 371) ∧
      ((orSelf s (s.remove k)).log.length
          = (orSelf s (s.remove k)).index.length ∧
       (orSelf s (s.remove k)).threshold
          = 2 * (orSelf s (s.remove k)).log.length + 371)) ∧
    (s.record_count + 1 < s.threshold →
      (orSelf s (s.set k v)).log = s.log ++ [.Set k v] ∧
      (orSelf s (s.set k v)).threshold = s.threshold ∧
      (orSelf s (s.remove k)).log = s.log ++ [.Remove k] ∧
      (orSelf s (s.remove k)).threshold = s.threshold) := by
  obtain ⟨j, hj⟩ : ∃ j, aGet s.index k = some j := by
    cases h : aGet s.index k with
    | none => exact absurd h hin
    | some j => exact ⟨j, rfl⟩
  have hset : s.set k v = .ok (SpecStore.maybeCompact
      { log := s.log ++ [.Set k v]
        index := aInsert s.index k s.log.length
        record_count := s.record_count + 1
        threshold := s.threshold }) := by
    rw [SpecStore.set, if_neg hk]
  have hrem : s.remove k = .ok (SpecStore.maybeCompact
      { log := s.log ++ [.Remove k]
        index := aErase s.index k
        record_count := s.record_count + 1
        threshold := s.threshold }) := by
    rw [SpecStore.remove, if_neg hk, hj]
  refine ⟨⟨by rw [hset]; rfl, by rw [hrem]; rfl⟩, ?_, ?_⟩
  · intro htrig
    rw [hset, hrem,
      SpecStore.maybeCompact_of_ge
        { log := s.log ++ [.Set k v], index := aInsert s.index k s.log.length,
          record_count := s.record_count + 1, threshold := s.threshold }
        htrig,
      SpecStore.maybeCompact_of_ge
        { log := s.log ++ [.Remove k], index := aErase s.index k,
          record_count := s.record_count + 1, threshold := s.threshold }
        htrig]
    refine ⟨⟨?_, ?_, ?_⟩, ?_, ?_⟩ <;> simp [orSelf, SpecStore.compact]
  · intro hlt
    rw [hset, hrem,
      SpecStore.maybeCompact_of_lt
        { log := s.log ++ [.Set k v], index := aInsert s.index k s.log.length,
          record_count := s.record_count + 1, threshold := s.threshold }
        hlt,
      SpecStore.maybeCompact_of_lt
        { log := s.log ++ [.Remove k], index := aErase s.index k,
          record_count := s.record_count + 1, threshold := s.threshold }
        hlt]
    exact ⟨rfl, rfl, rfl, rfl⟩

/-- Witness for C4 at a concrete input: a store one write away from its
threshold of 373; setting a key triggers a synchronous compaction that
leaves one record for the one live key and a threshold of
`2 × 1 + 371 = 373`. -/
theorem c4_compaction_trigger_witness :
    SpecStore.set ⟨[.Set "k" "v"], [("k", 0)], 372, 373⟩ "k" "w"
      = .ok (orSelf ⟨[.Set "k" "v"], [("k", 0)], 372, 373⟩
          (SpecStore.set ⟨[.Set "k" "v"], [("k", 0)], 372, 373⟩ "k" "w")) ∧
    (orSelf ⟨[.Set "k" "v"], [("k", 0)], 372, 373⟩
        (SpecStore.set ⟨[.Set "k" "v"], [("k", 0)], 372, 373⟩ "k" "w")).log.length
      = (orSelf ⟨[.Set "k" "v"], [("k", 0)], 372, 373⟩
          (SpecStore.set ⟨[.Set "k" "v"], [("k", 0)], 372, 373⟩ "k" "w")).index.length ∧
    (orSelf ⟨[.Set "k" "v"], [("k", 0)], 372, 373⟩
        (SpecStore.set ⟨[.Set "k" "v"], [("k", 0)], 372, 373⟩ "k" "w")).threshold
      = 2 * (orSelf ⟨[.Set "k" "v"], [("k", 0)], 372, 373⟩
          (SpecStore.set ⟨[.Set "k" "v"], [("k", 0)], 372, 373⟩ "k" "w")).log.length
        + 371 :=
  ⟨(c4_compaction_trigger ⟨[.Set "k" "v"], [("k", 0)], 372, 373⟩ "k" "w"
      (by decide) (by decide)).1.1,
   ((c4_compaction_trigger ⟨[.Set "k" "v"], [("k", 0)], 372, 373⟩ "k" "w"
      (by decide) (by decide)).2.1 (by decide)).1.1,
   ((c4_compaction_trigger ⟨[.Set "k" "v"], [("k", 0)], 372, 373⟩ "k" "w"
      (by decide) (by decide)).2.1 (by decide)).1.2.2⟩
